import Mathlib

/-!
Verification of the request-authorization middleware in `src/middleware.ts`
of the Digital Health Record Management System for Migrant Workers.

The middleware is a pure decision function from (pathname, authorization
header, auth_token cookie) to a response: a pass-through (`NextResponse.next()`,
possibly annotated with identity headers), a JSON error with an HTTP status,
or a redirect.  The permission table `ROUTE_PERMISSIONS` and the credential
verifier `TokenManager.verifyToken` are imported from `@/lib/auth`, an
external collaborator module; both are taken as parameters here, so every
theorem quantifies over them.

String operations are modelled over the character lists underlying `String`,
matching JavaScript's `startsWith`, `endsWith`, `includes` and `substring`
on ASCII path data.
-/

namespace Middleware

/-- JavaScript `s.startsWith(p)`: `p` is a prefix of `s`. -/
def strStartsWith (s p : String) : Bool :=
  p.data.isPrefixOf s.data

/-- JavaScript `s.endsWith(p)`: `p` is a suffix of `s`. -/
def strEndsWith (s p : String) : Bool :=
  p.data.isSuffixOf s.data

/-- Containment of one character list in another, scanning left to right. -/
def listContainsSub (sub : List Char) : List Char → Bool
  | [] => sub.isEmpty
  | c :: rest => sub.isPrefixOf (c :: rest) || listContainsSub sub rest

/-- JavaScript `s.includes(sub)`: `sub` occurs as a contiguous substring. -/
def strContainsSub (s sub : String) : Bool :=
  listContainsSub sub.data s.data

/-- JavaScript `s.substring(n)`: drop the first `n` characters. -/
def strDrop (s : String) (n : Nat) : String :=
  String.mk (s.data.drop n)

/-- `PUBLIC_ROUTES` from src/middleware.ts lines 5-14: routes that do not
require authentication. -/
def PUBLIC_ROUTES : List String :=
  ["/",
   "/help",
   "/api/auth/login",
   "/api/auth/register",
   "/api/auth/refresh",
   "/workers/register",
   "/_next",
   "/favicon.ico"]

/-- `AUTH_ONLY_ROUTES` from src/middleware.ts lines 17-19: routes that
require authentication but no role check. -/
def AUTH_ONLY_ROUTES : List String :=
  ["/api/auth/verify"]

/-- The identity claim produced by `TokenManager.verifyToken` for a valid
credential (payload fields read by the middleware). -/
structure TokenPayload where
  userId : String
  role : String
  email : String
  permissions : List String
  deriving DecidableEq

/-- The middleware's possible responses: `NextResponse.next()` carrying the
listed extra headers, `NextResponse.json({error: ...}, {status: ...})`, or
`NextResponse.redirect` to a path with a query string. -/
inductive Decision where
  | next (headers : List (String × String))
  | jsonError (status : Nat) (error : String)
  | redirect (path : String) (query : List (String × String))
  deriving DecidableEq

/-- Static-file / framework-internal exemption, src/middleware.ts lines 25-35. -/
def isStaticExempt (pathname : String) : Bool :=
  strContainsSub pathname "_next" ||
  strContainsSub pathname "favicon" ||
  strEndsWith pathname ".js" ||
  strEndsWith pathname ".css" ||
  strEndsWith pathname ".png" ||
  strEndsWith pathname ".jpg" ||
  strEndsWith pathname ".svg"

/-- Public-route classification, src/middleware.ts lines 38-40:
`PUBLIC_ROUTES.some(route => pathname === route || pathname.startsWith(route))`. -/
def isPublicRoute (pathname : String) : Bool :=
  PUBLIC_ROUTES.any (fun route => pathname == route || strStartsWith pathname route)

/-- A path the middleware exempts from all checks: static-asset or
framework-internal, or matching the public-route list. -/
def isExempt (pathname : String) : Bool :=
  isStaticExempt pathname || isPublicRoute pathname

/-- Auth-only classification, src/middleware.ts lines 88-90. -/
def isAuthOnlyRoute (pathname : String) : Bool :=
  AUTH_ONLY_ROUTES.any (fun route => pathname == route || strStartsWith pathname route)

/-- Cookie fallback, src/middleware.ts line 54:
`request.cookies.get("auth_token")?.value || null` — an absent cookie or an
empty cookie value both yield `null`. -/
def cookieTokenValue (cookie : Option String) : Option String :=
  match cookie with
  | some v => if v == "" then none else some v
  | none => none

/-- Credential extraction, src/middleware.ts lines 47-55: a truthy
`authorization` header starting with `"Bearer "` yields everything after
that prefix; otherwise the `auth_token` cookie is consulted. -/
def extractToken (authHeader cookie : Option String) : Option String :=
  match authHeader with
  | some a =>
      if (!(a == "")) && strStartsWith a "Bearer " then some (strDrop a 7)
      else cookieTokenValue cookie
  | none => cookieTokenValue cookie

/-- Exact-match lookup in the permission table, src/middleware.ts lines
137-139 (`ROUTE_PERMISSIONS[pathname]`).  The table is the ordered entry
list of the `ROUTE_PERMISSIONS` object. -/
def lookupExact : List (String × List String) → String → Option (List String)
  | [], _ => none
  | e :: rest, p => if e.1 = p then some e.2 else lookupExact rest p

/-- First prefix match over the table entries in declaration order,
src/middleware.ts lines 142-146. -/
def findPrefixMatch : List (String × List String) → String → Option (List String)
  | [], _ => none
  | e :: rest, p => if strStartsWith p e.1 then some e.2 else findPrefixMatch rest p

/-- `getRoutePermissions`, src/middleware.ts lines 135-166: exact match,
then first declared prefix match, then hard-coded structural rules for the
worker / doctor / admin API sub-trees, then the empty default. -/
def getRoutePermissions (table : List (String × List String)) (pathname : String) :
    List String :=
  match lookupExact table pathname with
  | some permissions => permissions
  | none =>
    match findPrefixMatch table pathname with
    | some permissions => permissions
    | none =>
      if strStartsWith pathname "/api/workers/" then
        if strContainsSub pathname "/documents" then
          ["read:own_documents", "read:patient_documents"]
        else
          ["read:own_profile", "read:patient_profiles"]
      else if strStartsWith pathname "/api/doctors/" then
        ["read:patient_profiles"]
      else if strStartsWith pathname "/api/admin/" then
        ["read:all_users"]
      else
        []

/-- `getDashboardUrl`, src/middleware.ts lines 171-182. -/
def getDashboardUrl (role : String) : String :=
  if role = "worker" then "/workers/dashboard"
  else if role = "doctor" then "/doctors"
  else if role = "admin" then "/admin"
  else "/"

/-- The three identity headers set on an allowed authenticated request,
src/middleware.ts lines 94-98 and 124-127. -/
def identityHeaders (payload : TokenPayload) : List (String × String) :=
  [("x-user-id", payload.userId),
   ("x-user-role", payload.role),
   ("x-user-email", payload.email)]

/-- Missing-credential outcome, src/middleware.ts lines 58-70. -/
def missingTokenResponse (pathname : String) : Decision :=
  if strStartsWith pathname "/api/" then
    Decision.jsonError 401 "Authentication required"
  else
    Decision.redirect "/auth/login" [("redirect", pathname)]

/-- Invalid-credential outcome, src/middleware.ts lines 74-85. -/
def invalidTokenResponse (pathname : String) : Decision :=
  if strStartsWith pathname "/api/" then
    Decision.jsonError 401 "Invalid or expired token"
  else
    Decision.redirect "/auth/login" [("redirect", pathname)]

/-- Insufficient-permission outcome, src/middleware.ts lines 109-119. -/
def permissionDenied (pathname : String) (role : String) : Decision :=
  if strStartsWith pathname "/api/" then
    Decision.jsonError 403 "Insufficient permissions"
  else
    Decision.redirect (getDashboardUrl role) []

/-- The middleware after a verified identity claim: auth-only short-circuit,
then the any-of permission check, src/middleware.ts lines 88-129. -/
def afterAuth (table : List (String × List String)) (pathname : String)
    (payload : TokenPayload) : Decision :=
  if isAuthOnlyRoute pathname then
    Decision.next (identityHeaders payload)
  else
    let requiredPermissions := getRoutePermissions table pathname
    if requiredPermissions.length > 0 then
      if requiredPermissions.any (fun permission => payload.permissions.contains permission) then
        Decision.next (identityHeaders payload)
      else
        permissionDenied pathname payload.role
    else
      Decision.next (identityHeaders payload)

/-- The middleware after credential extraction: `if (!token)` treats both a
null and an empty token as missing, then verification runs,
src/middleware.ts lines 58-129. -/
def afterToken (table : List (String × List String))
    (verifyToken : String → Option TokenPayload)
    (pathname : String) (token : Option String) : Decision :=
  match token with
  | none => missingTokenResponse pathname
  | some t =>
    if t == "" then missingTokenResponse pathname
    else
      match verifyToken t with
      | none => invalidTokenResponse pathname
      | some payload => afterAuth table pathname payload

/-- The whole `middleware` function, src/middleware.ts lines 21-130,
parameterized over the external `ROUTE_PERMISSIONS` entry list and
`TokenManager.verifyToken`. -/
def middleware (table : List (String × List String))
    (verifyToken : String → Option TokenPayload)
    (pathname : String) (authHeader : Option String) (cookie : Option String) :
    Decision :=
  if isStaticExempt pathname then
    Decision.next []
  else if isPublicRoute pathname then
    Decision.next []
  else
    afterToken table verifyToken pathname (extractToken authHeader cookie)

end Middleware

namespace Middleware

/-- Any path beginning with `/` matches the `"/"` entry of `PUBLIC_ROUTES`
under raw string-prefix matching. -/
theorem isPublicRoute_of_slash (pathname : String)
    (h : strStartsWith pathname "/" = true) : isPublicRoute pathname = true := by
  simp [isPublicRoute, PUBLIC_ROUTES, h]

/-- Claim C1: every request whose pathname begins with `/` is classified
public (because `"/"` is an entry of `PUBLIC_ROUTES` and matching is raw
string prefix), and the middleware returns the plain pass-through
`NextResponse.next()` with no identity headers, regardless of the permission
table, the verifier, the authorization header, or the cookie — so the
missing-credential, invalid-token, auth-only, and insufficient-permission
branches are unreachable for such paths. -/
theorem slash_paths_always_allowed (table : List (String × List String))
    (verifyToken : String → Option TokenPayload)
    (pathname : String) (authHeader cookie : Option String)
    (h : strStartsWith pathname "/" = true) :
    isPublicRoute pathname = true ∧
      middleware table verifyToken pathname authHeader cookie = Decision.next [] := by
  have hp := isPublicRoute_of_slash pathname h
  refine ⟨hp, ?_⟩
  unfold middleware
  cases hs : isStaticExempt pathname <;> simp [hs, hp]

/-- Witness for C1: the protected-looking path `/api/secret`, with a bearer
header present and a verifier that rejects everything, is still passed
through untouched. -/
theorem slash_paths_always_allowed_witness :
    strStartsWith "/api/secret" "/" = true ∧
      (isPublicRoute "/api/secret" = true ∧
        middleware [] (fun _ => none) "/api/secret" (some "Bearer x") none =
          Decision.next []) :=
  ⟨by decide,
   slash_paths_always_allowed [] (fun _ => none) "/api/secret"
     (some "Bearer x") none (by decide)⟩

/-- Claim C4: every exempt path — one containing the framework-internal
markers, ending in a static-asset extension, or equal to / prefixed by a
public-route entry — is allowed unconditionally, for every permission
table, verifier, header, and cookie. -/
theorem exempt_paths_allowed (table : List (String × List String))
    (verifyToken : String → Option TokenPayload)
    (pathname : String) (authHeader cookie : Option String)
    (h : isExempt pathname = true) :
    middleware table verifyToken pathname authHeader cookie = Decision.next [] := by
  unfold middleware
  cases hs : isStaticExempt pathname
  · have hp : isPublicRoute pathname = true := by
      have := h
      unfold isExempt at this
      simpa [hs] using this
    simp [hs, hp]
  · simp [hs]

/-- Witness for C4: `/help/contact` is exempt by the public-route entry
`/help`, and is passed through even with a bearer header a rejecting
verifier would refuse. -/
theorem exempt_paths_allowed_witness :
    isExempt "/help/contact" = true ∧
      middleware [] (fun _ => none) "/help/contact" (some "Bearer z")
        (some "cookie") = Decision.next [] :=
  ⟨by decide,
   exempt_paths_allowed [] (fun _ => none) "/help/contact" (some "Bearer z")
     (some "cookie") (by decide)⟩

/-- If a path occurs as a key of the table and the table's keys are
distinct (as the keys of a JavaScript object literal are), exact lookup
returns that entry's value. -/
theorem lookupExact_of_mem (table : List (String × List String))
    (p : String) (perms : List String)
    (hnd : (table.map Prod.fst).Nodup) (hmem : (p, perms) ∈ table) :
    lookupExact table p = some perms := by
  induction table with
  | nil => cases hmem
  | cons e rest ih =>
    rw [List.map_cons, List.nodup_cons] at hnd
    cases hmem with
    | head => simp [lookupExact]
    | tail _ hmem' =>
      have hne : e.1 ≠ p := by
        intro hkey
        exact hnd.1 (hkey ▸ List.mem_map_of_mem Prod.fst hmem')
      rw [lookupExact, if_neg hne]
      exact ih hnd.2 hmem'

/-- Claim C5: for every path that is an exact key of the permission table
(keys distinct, as in a JavaScript object), `getRoutePermissions` returns
that entry's permission list — prefix entries and the hard-coded structural
rules for `/api/workers/`, `/api/doctors/`, `/api/admin/` never pre-empt an
exact match. -/
theorem exact_match_precedence (table : List (String × List String))
    (p : String) (perms : List String)
    (hnd : (table.map Prod.fst).Nodup) (hmem : (p, perms) ∈ table) :
    getRoutePermissions table p = perms := by
  unfold getRoutePermissions
  rw [lookupExact_of_mem table p perms hnd hmem]

/-- Witness for C5: `/api/admin/users` is an exact key mapped to
`manage:users`; it also matches the prefix entry `/api` and the structural
rule for `/api/admin/`, yet the exact entry wins. -/
theorem exact_match_precedence_witness :
    (([("/api/admin/users", ["manage:users"]), ("/api", ["perm:generic"])].map
        Prod.fst).Nodup) ∧
      ("/api/admin/users", ["manage:users"]) ∈
        [("/api/admin/users", ["manage:users"]), ("/api", ["perm:generic"])] ∧
      getRoutePermissions
        [("/api/admin/users", ["manage:users"]), ("/api", ["perm:generic"])]
        "/api/admin/users" = ["manage:users"] :=
  ⟨by decide, by decide,
   exact_match_precedence
     [("/api/admin/users", ["manage:users"]), ("/api", ["perm:generic"])]
     "/api/admin/users" ["manage:users"] (by decide) (by decide)⟩

/-- The prefix scan over `pre ++ (k, v) :: rest` returns `v` when no entry
of `pre` is a prefix of the path but `k` is, whatever follows in `rest`. -/
theorem findPrefixMatch_append (pre rest : List (String × List String))
    (k : String) (v : List String) (p : String)
    (hpre : ∀ e ∈ pre, strStartsWith p e.1 = false)
    (hk : strStartsWith p k = true) :
    findPrefixMatch (pre ++ (k, v) :: rest) p = some v := by
  induction pre with
  | nil => simp [findPrefixMatch, hk]
  | cons e pre ih =>
    have he : strStartsWith p e.1 = false := hpre e (List.mem_cons_self e pre)
    rw [List.cons_append, findPrefixMatch, if_neg (by simp [he])]
    exact ih (fun e' h' => hpre e' (List.mem_cons_of_mem e h'))

/-- Claim C6: for a path with no exact table match, the resolver scans the
entries in declaration order and returns the first whose key is a string
prefix of the path — entries after it, even longer and more specific
prefixes in `rest`, are never consulted. -/
theorem declaration_order_tie_break (pre rest : List (String × List String))
    (k : String) (v : List String) (p : String)
    (hnone : lookupExact (pre ++ (k, v) :: rest) p = none)
    (hpre : ∀ e ∈ pre, strStartsWith p e.1 = false)
    (hk : strStartsWith p k = true) :
    getRoutePermissions (pre ++ (k, v) :: rest) p = v := by
  unfold getRoutePermissions
  rw [hnone, findPrefixMatch_append pre rest k v p hpre hk]

/-- Witness for C6: `/api/workersX` has no exact entry; the first declared
entry `/api` matches and wins although the later entry `/api/workers` is a
longer prefix of the path. -/
theorem declaration_order_tie_break_witness :
    lookupExact [("/api", ["perm:a"]), ("/api/workers", ["perm:b"])]
        "/api/workersX" = none ∧
      (∀ e ∈ ([] : List (String × List String)),
        strStartsWith "/api/workersX" e.1 = false) ∧
      strStartsWith "/api/workersX" "/api" = true ∧
      getRoutePermissions [("/api", ["perm:a"]), ("/api/workers", ["perm:b"])]
        "/api/workersX" = ["perm:a"] :=
  ⟨by decide, by decide, by decide,
   declaration_order_tie_break [] [("/api/workers", ["perm:b"])] "/api"
     ["perm:a"] "/api/workersX" (by decide) (by decide) (by decide)⟩

/-- Claim C7: a path under `/api/workers/` with no exact or prefix entry in
the permission table resolves by the structural rule: with the substring
`/documents` it yields exactly `read:own_documents, read:patient_documents`;
without it, `read:own_profile, read:patient_profiles`. -/
theorem workers_structural_permissions (table : List (String × List String))
    (p : String)
    (hexact : lookupExact table p = none)
    (hnopfx : findPrefixMatch table p = none)
    (hw : strStartsWith p "/api/workers/" = true) :
    getRoutePermissions table p =
      (if strContainsSub p "/documents" then
        ["read:own_documents", "read:patient_documents"]
      else
        ["read:own_profile", "read:patient_profiles"]) := by
  unfold getRoutePermissions
  rw [hexact, hnopfx]
  simp [hw]

/-- Witness for C7: `/api/workers/42/documents` with an empty table resolves
to the documents permission pair. -/
theorem workers_structural_permissions_witness :
    lookupExact [] "/api/workers/42/documents" = none ∧
      findPrefixMatch [] "/api/workers/42/documents" = none ∧
      strStartsWith "/api/workers/42/documents" "/api/workers/" = true ∧
      getRoutePermissions [] "/api/workers/42/documents" =
        (if strContainsSub "/api/workers/42/documents" "/documents" then
          ["read:own_documents", "read:patient_documents"]
        else
          ["read:own_profile", "read:patient_profiles"]) :=
  ⟨by decide, by decide, by decide,
   workers_structural_permissions [] "/api/workers/42/documents" (by decide)
     (by decide) (by decide)⟩

/-- Claim C2 (refuting evaluation): `/api/workers/1` is an API path carrying
no credential, yet the middleware passes it through instead of answering
401 `Authentication required`: the `"/"` entry of `PUBLIC_ROUTES` is a raw
string prefix of every path, so the missing-credential branch never runs. -/
theorem api_no_credential_not_rejected :
    strStartsWith "/api/workers/1" "/api/" = true ∧
      extractToken none none = none ∧
      middleware [] (fun _ => none) "/api/workers/1" none none =
        Decision.next [] ∧
      middleware [] (fun _ => none) "/api/workers/1" none none ≠
        Decision.jsonError 401 "Authentication required" := by
  decide

/-- Claim C3 (refuting evaluation): `/dashboard` is a non-API path with no
credential, yet the middleware passes it through instead of redirecting to
`/auth/login?redirect=/dashboard`: every `/`-prefixed path is classified
public. -/
theorem non_api_no_credential_not_redirected :
    strStartsWith "/dashboard" "/api/" = false ∧
      extractToken none none = none ∧
      middleware [] (fun _ => none) "/dashboard" none none =
        Decision.next [] ∧
      middleware [] (fun _ => none) "/dashboard" none none ≠
        Decision.redirect "/auth/login" [("redirect", "/dashboard")] := by
  decide

/-- Claim C8 (refuting evaluation): a valid worker identity with an empty
permission list requests `/api/admin/stats`, whose resolved requirement is
the non-empty `read:all_users` with no intersection — yet the middleware
passes the request through instead of answering 403
`Insufficient permissions`, because the `"/"` public-route prefix exempts
every path before the permission check can run. -/
theorem insufficient_permission_not_rejected :
    getRoutePermissions [] "/api/admin/stats" = ["read:all_users"] ∧
      (["read:all_users"].any (fun permission =>
        (TokenPayload.mk "u1" "worker" "u@example.com" []).permissions.contains
          permission)) = false ∧
      middleware [] (fun _ => some (TokenPayload.mk "u1" "worker" "u@example.com" []))
          "/api/admin/stats" (some "Bearer tok") none = Decision.next [] ∧
      middleware [] (fun _ => some (TokenPayload.mk "u1" "worker" "u@example.com" []))
          "/api/admin/stats" (some "Bearer tok") none ≠
        Decision.jsonError 403 "Insufficient permissions" := by
  decide

/-- Claim C9 (counterexample): on the non-exempt path `dashboard` with the
header `Bearer ` — whose remainder after the scheme prefix is empty — and a
verifier accepting every credential, the middleware takes the
missing-credential outcome (the login redirect) rather than proceeding to
verification: the extracted empty token is falsy under `if (!token)`. -/
theorem bearer_empty_token_counterexample :
    isExempt "dashboard" = false ∧
      strStartsWith "Bearer " "Bearer " = true ∧
      strDrop "Bearer " 7 = "" ∧
      middleware [] (fun _ => some (TokenPayload.mk "u2" "worker" "w@example.com" []))
          "dashboard" (some "Bearer ") (some "cookietoken") =
        Decision.redirect "/auth/login" [("redirect", "dashboard")] ∧
      middleware [] (fun _ => some (TokenPayload.mk "u2" "worker" "w@example.com" []))
          "dashboard" (some "Bearer ") (some "cookietoken") ≠
        Decision.next
          (identityHeaders (TokenPayload.mk "u2" "worker" "w@example.com" [])) := by
  decide

/-- Claim C9 as amended: for every non-exempt request whose authorization
header begins with `Bearer `, the extracted credential is exactly everything
after that prefix and the cookie is never consulted; when that remainder is
non-empty the engine proceeds to verification of it, but when the remainder
is the empty string the token counts as missing and the missing-credential
outcome is taken. -/
theorem bearer_extraction_amended (table : List (String × List String))
    (verifyToken : String → Option TokenPayload)
    (p a : String) (cookie : Option String)
    (hex : isExempt p = false)
    (ha : strStartsWith a "Bearer " = true) :
    extractToken (some a) cookie = some (strDrop a 7) ∧
      (strDrop a 7 = "" →
        middleware table verifyToken p (some a) cookie = missingTokenResponse p) ∧
      (strDrop a 7 ≠ "" →
        middleware table verifyToken p (some a) cookie =
          match verifyToken (strDrop a 7) with
          | none => invalidTokenResponse p
          | some payload => afterAuth table p payload) := by
  have hne : a ≠ "" := by
    intro h
    subst h
    exact absurd ha (by decide)
  have hstat : isStaticExempt p = false ∧ isPublicRoute p = false := by
    unfold isExempt at hex
    simpa using hex
  have hext : extractToken (some a) cookie = some (strDrop a 7) := by
    simp [extractToken, hne, ha]
  refine ⟨hext, ?_, ?_⟩
  · intro hdrop
    simp [middleware, hstat.1, hstat.2, hext, afterToken, hdrop]
  · intro hdrop
    simp [middleware, hstat.1, hstat.2, hext, afterToken, hdrop]

/-- Witness for the amended C9: path `someplace`, header `Bearer tok`, and
a cookie that would fail verification were it consulted. -/
theorem bearer_extraction_amended_witness :
    isExempt "someplace" = false ∧
      strStartsWith "Bearer tok" "Bearer " = true ∧
      (extractToken (some "Bearer tok") (some "cookieval") =
          some (strDrop "Bearer tok" 7) ∧
        (strDrop "Bearer tok" 7 = "" →
          middleware [] (fun _ => none) "someplace" (some "Bearer tok")
              (some "cookieval") = missingTokenResponse "someplace") ∧
        (strDrop "Bearer tok" 7 ≠ "" →
          middleware [] (fun _ => none) "someplace" (some "Bearer tok")
              (some "cookieval") =
            match (fun _ => none : String → Option TokenPayload)
                (strDrop "Bearer tok" 7) with
            | none => invalidTokenResponse "someplace"
            | some payload => afterAuth [] "someplace" payload)) :=
  ⟨by decide, by decide,
   bearer_extraction_amended [] (fun _ => none) "someplace" "Bearer tok"
     (some "cookieval") (by decide) (by decide)⟩

/-- Claim C10: the middleware's decision is a pure function of the path,
the authorization header, and the cookie (the configuration tables and the
verifier held fixed): two evaluations on equal inputs yield identical
decisions, and no evaluation mutates any table — the embedding is a total
function over immutable values, mirroring the source, whose resolver hands
back spread copies of the permission lists and never writes a table. -/
theorem middleware_deterministic (table : List (String × List String))
    (verifyToken : String → Option TokenPayload)
    (p a c p' a' c') (hp : p = p') (ha : a = a') (hc : c = c') :
    middleware table verifyToken p a c = middleware table verifyToken p' a' c' := by
  subst hp
  subst ha
  subst hc
  rfl

/-- Witness for C10: two evaluations of the same concrete request agree. -/
theorem middleware_deterministic_witness :
    "/records" = "/records" ∧ (some "Bearer t" : Option String) = some "Bearer t" ∧
      (none : Option String) = none ∧
      middleware [] (fun _ => none) "/records" (some "Bearer t") none =
        middleware [] (fun _ => none) "/records" (some "Bearer t") none :=
  ⟨rfl, rfl, rfl,
   middleware_deterministic [] (fun _ => none) "/records" (some "Bearer t")
     none "/records" (some "Bearer t") none rfl rfl rfl⟩

end Middleware
